import Mathlib

/-!
Shallow embedding of the playback-controller core of
`src/dev/AnimatedVisualPlayer/AnimatedVisualPlayer.cpp` (AnimatedVisualPlayer and
its nested AnimationPlay class).

Modelling conventions:
* C++ `float`/`double` progress values, durations and rates are embedded as `ℚ`
  (the claims under study are about control flow and exact arithmetic identities,
  not binary floating-point rounding).
* `winrt::TimeSpan` durations are measured in 100ns ticks, as in WinRT; the
  20ms floor in `AnimationPlay::Start` is 200000 ticks.  The
  `duration_cast<winrt::TimeSpan>` truncation to whole ticks is elided (exact
  rational arithmetic is used instead).
* The Composition `AnimationController` obtained from
  `TryGetAnimationController` is embedded as the fields `hasController`,
  `driverPaused`, `driverRate`, `driverPosition` of the play record;
  `m_batch` / the BatchCompleted subscription as `batchSubscribed`.
* Ghost (history) fields that do not exist in the C++ state but record
  externally observable events: `started` and `completed` on a play
  (`completed` = `CompleteAwaits()` was performed, i.e. the awaitable was
  released), the append-only `plays` log of every AnimationPlay ever
  constructed (`m_nowPlaying` is an index into it), `constructorLog` (the
  arguments of every AnimationPlay constructor call), and `everIsPlayingTrue`
  (whether the IsPlaying dependency property was ever set to true).
* `SharedHelpers::IsRS5OrHigher()` is the environment flag `rs5`.
* Reentrancy: `PlayAsync`'s `Stop()` call can re-enter `PlayAsync` through
  user callbacks (the source tags each call with `m_playAsyncVersion`).  A
  request is therefore a tree `Req`: the arguments plus the list of nested
  requests issued during this call's `Stop()`.
-/

namespace AVP

/-- Embedding of `std::clamp(v, 0.0F, 1.0F)`: `v < lo ? lo : hi < v ? hi : v`. -/
def clampF (x : ℚ) : ℚ :=
  if x < 0 then 0 else if 1 < x then 1 else x

/-- The 20ms duration floor of `AnimationPlay::Start`, in 100ns ticks. -/
def minPlayDurationTicks : ℚ := 200000

/-- One `AnimationPlay` (the nested class), plus ghost history fields. -/
structure AnimationPlay where
  /-- Member `m_fromProgress` (already clamped by the caller). -/
  fromProgress : ℚ
  /-- Member `m_toProgress` (already clamped by the caller). -/
  toProgress : ℚ
  /-- Member `m_looped`. -/
  looped : Bool
  /-- Member `m_playDuration`, in ticks. -/
  playDuration : ℚ
  /-- Member `m_isPaused`. -/
  isPaused : Bool
  /-- Member `m_isPausedBecauseHidden`. -/
  isPausedBecauseHidden : Bool
  /-- whether `m_controller` is non-null (set by the long path of `Start`). -/
  hasController : Bool
  /-- whether the composition AnimationController is paused. -/
  driverPaused : Bool
  /-- the PlaybackRate set on the AnimationController. -/
  driverRate : ℚ
  /-- the AnimationController's Progress (seek position); 1 when started in reverse. -/
  driverPosition : ℚ
  /-- whether `m_batch` exists and the BatchCompleted handler is subscribed. -/
  batchSubscribed : Bool
  /-- ghost: the long path of `Start` ran (the play entered the Started state). -/
  started : Bool
  /-- ghost: `Complete()` ran `CompleteAwaits()` (the awaitable was released). -/
  completed : Bool
deriving DecidableEq

/-- The `AnimatedVisualPlayer` state, plus ghost history fields. -/
structure AnimatedVisualPlayer where
  /-- Result of `SharedHelpers::IsRS5OrHigher()` (fixed property of the host OS). -/
  rs5 : Bool
  /-- the `Progress` scalar of `m_progressPropertySet`. -/
  progress : ℚ
  /-- Property `Duration()`, in ticks; 0 when no content is loaded. -/
  duration : ℚ
  /-- Property `PlaybackRate()`. -/
  playbackRate : ℚ
  /-- Property `IsAnimatedVisualLoaded()`. -/
  isAnimatedVisualLoaded : Bool
  /-- Member `m_nowPlaying`: index of the current play in `plays`, if any. -/
  nowPlaying : Option Nat
  /-- ghost: append-only log of every AnimationPlay ever constructed
      (completed plays stay in the log; in C++ they are destructed). -/
  plays : List AnimationPlay
  /-- ghost: the `(fromProgress, toProgress, looped)` arguments of every
      AnimationPlay constructor call, in order. -/
  constructorLog : List (ℚ × ℚ × Bool)
  /-- Member `m_playAsyncVersion`. -/
  playAsyncVersion : Nat
  /-- Member `m_currentPlayFromProgress`.  NOTE: the source reads this field in
      `Stop()` but never assigns it, so it forever retains the initial value
      given by its declaration (0). -/
  currentPlayFromProgress : ℚ
  /-- the `IsPlaying` dependency property. -/
  isPlaying : Bool
  /-- ghost: whether `IsPlaying` was ever set to `true`. -/
  everIsPlayingTrue : Bool
deriving DecidableEq

/-- Replace the element at index `n` (no-op when out of range). -/
def modifyNth (f : AnimationPlay → AnimationPlay) : Nat → List AnimationPlay → List AnimationPlay
  | _, [] => []
  | 0, r :: rs => f r :: rs
  | n + 1, r :: rs => r :: modifyNth f n rs

/-- Apply `f` to the play with index `pid` in the log. -/
def modifyPlay (st : AnimatedVisualPlayer) (pid : Nat) (f : AnimationPlay → AnimationPlay) :
    AnimatedVisualPlayer :=
  { st with plays := modifyNth f pid st.plays }

/-- The `IsPlaying(bool)` dependency-property setter (ghost-tracks whether it
    was ever set to true). -/
def setIsPlaying (st : AnimatedVisualPlayer) (b : Bool) : AnimatedVisualPlayer :=
  { st with isPlaying := b, everIsPlayingTrue := st.everIsPlayingTrue || b }

/-- Method `AnimationPlay::Pause` (lines 181-192): set `m_isPaused`; pause the
    controller unless the hidden-pause already holds it paused. -/
def AnimationPlay.pause (r : AnimationPlay) : AnimationPlay :=
  let r := { r with isPaused := true }
  if r.hasController then
    (if !r.isPausedBecauseHidden then { r with driverPaused := true } else r)
  else r

/-- Method `AnimationPlay::Resume` (lines 194-205). -/
def AnimationPlay.resume (r : AnimationPlay) : AnimationPlay :=
  let r := { r with isPaused := false }
  if r.hasController then
    (if !r.isPausedBecauseHidden then { r with driverPaused := false } else r)
  else r

/-- Method `AnimationPlay::OnHiding` (lines 143-161). -/
def AnimationPlay.onHiding (r : AnimationPlay) : AnimationPlay :=
  if !r.isPausedBecauseHidden then
    let r := { r with isPausedBecauseHidden := true }
    if r.hasController then
      (if !r.isPaused then { r with driverPaused := true } else r)
    else r
  else r

/-- Method `AnimationPlay::OnUnhiding` (lines 164-179). -/
def AnimationPlay.onUnhiding (r : AnimationPlay) : AnimationPlay :=
  if r.isPausedBecauseHidden then
    let r := { r with isPausedBecauseHidden := false }
    if r.hasController then
      (if !r.isPaused then { r with driverPaused := false } else r)
    else r
  else r

/-- Method `AnimationPlay::Complete` (lines 209-252): unsubscribe from the batch;
    if this play is the current play, disconnect it and set IsPlaying false
    (in that order); finally `CompleteAwaits()` (ghost flag `completed`). -/
def completePlay (st : AnimatedVisualPlayer) (pid : Nat) : AnimatedVisualPlayer :=
  let st := modifyPlay st pid (fun r => { r with batchSubscribed := false })
  let st :=
    if st.nowPlaying = some pid then
      setIsPlaying { st with nowPlaying := none } false
    else st
  modifyPlay st pid (fun r => { r with completed := true })

/-- Method `AnimatedVisualPlayer::CompleteCurrentPlay` (lines 589-596). -/
def completeCurrentPlay (st : AnimatedVisualPlayer) : AnimatedVisualPlayer :=
  match st.nowPlaying with
  | some pid => completePlay st pid
  | none => st

/-- Method `AnimatedVisualPlayer::SetProgress` (lines 679-699): clamp, write the
    Progress scalar, then explicitly complete the current play if any. -/
def setProgress (st : AnimatedVisualPlayer) (p : ℚ) : AnimatedVisualPlayer :=
  if st.rs5 = false then st
  else
    let clampedProgress := clampF p
    let st1 := { st with progress := clampedProgress }
    match st.nowPlaying with
    | some pid => completePlay st1 pid
    | none => st1

/-- Method `AnimatedVisualPlayer::Stop` (lines 701-714): if a play is active, set
    Progress to `m_currentPlayFromProgress` (a field the source never
    assigns). -/
def stop (st : AnimatedVisualPlayer) : AnimatedVisualPlayer :=
  if st.rs5 = false then st
  else
    match st.nowPlaying with
    | some _ => setProgress st st.currentPlayFromProgress
    | none => st

/-- Method `AnimatedVisualPlayer::Pause` (lines 575-586). -/
def pause (st : AnimatedVisualPlayer) : AnimatedVisualPlayer :=
  if st.rs5 = false then st
  else
    match st.nowPlaying with
    | some pid => modifyPlay st pid AnimationPlay.pause
    | none => st

/-- Method `AnimatedVisualPlayer::Resume` (lines 666-677). -/
def resume (st : AnimatedVisualPlayer) : AnimatedVisualPlayer :=
  if st.rs5 = false then st
  else
    match st.nowPlaying with
    | some pid => modifyPlay st pid AnimationPlay.resume
    | none => st

/-- Method `AnimatedVisualPlayer::OnHiding` (lines 369-375, no RS5 guard). -/
def onHiding (st : AnimatedVisualPlayer) : AnimatedVisualPlayer :=
  match st.nowPlaying with
  | some pid => modifyPlay st pid AnimationPlay.onHiding
  | none => st

/-- Method `AnimatedVisualPlayer::OnUnhiding` (lines 377-383, no RS5 guard). -/
def onUnhiding (st : AnimatedVisualPlayer) : AnimatedVisualPlayer :=
  match st.nowPlaying with
  | some pid => modifyPlay st pid AnimationPlay.onUnhiding
  | none => st

/-- The `AnimationPlay` constructor (lines 13-29): record the range and
    compute `m_playDuration` from the owner's `Duration()`. -/
def mkAnimationPlay (ownerDuration fromProgress toProgress : ℚ) (looped : Bool) :
    AnimationPlay :=
  -- `fromProgress > toProgress`, written with `<` flipped
  let durationAsProgress :=
    if toProgress < fromProgress then (1 - fromProgress) + toProgress
    else toProgress - fromProgress
  { fromProgress := fromProgress
    toProgress := toProgress
    looped := looped
    playDuration := ownerDuration * durationAsProgress
    isPaused := false
    isPausedBecauseHidden := false
    hasController := false
    driverPaused := false
    driverRate := 0
    driverPosition := 0
    batchSubscribed := false
    started := false
    completed := false }

/-- Method `AnimationPlay::Start` (lines 36-127), called on the play with index
    `pid`.  Durations under the 20ms floor jump straight to `fromProgress`
    via `SetProgress` (which completes the play); otherwise the animation is
    started, the controller is obtained, pre-set pause state is applied, the
    playback rate is set (seeking to the end when negative), the batch is
    subscribed for non-looping plays, and IsPlaying is set true.
    `startUpdate` is the state change of the long path on the play record
    itself (lines 52-123): controller obtained, pre-set pause state applied,
    rate set (seeking to the end when negative), batch subscribed unless
    looping. -/
def startUpdate (playbackRate : ℚ) (r0 : AnimationPlay) : AnimationPlay :=
  { r0 with
    started := true
    hasController := true
    driverPaused := r0.isPaused || r0.isPausedBecauseHidden
    driverRate := playbackRate
    driverPosition := if playbackRate < 0 then 1 else 0
    batchSubscribed := !r0.looped }

def startPlay (st : AnimatedVisualPlayer) (pid : Nat) : AnimatedVisualPlayer :=
  match st.plays[pid]? with
  | none => st
  | some r =>
    if r.playDuration < minPlayDurationTicks then
      setProgress st r.fromProgress
    else
      setIsPlaying (modifyPlay st pid (startUpdate st.playbackRate)) true

/-- The two boundary rewrites of `PlayAsync` (lines 620-636), applied to the
    raw (unclamped) arguments, the second test seeing the result of the
    first. -/
def sanitize (fromProgress toProgress : ℚ) : ℚ × ℚ :=
  let toProgress := if toProgress = 0 ∧ 0 < fromProgress then 1 else toProgress
  let fromProgress := if 0 < toProgress ∧ fromProgress = 1 then 0 else fromProgress
  (fromProgress, toProgress)

/-- Outcome of one `PlayAsync` call. -/
inductive Outcome where
  /-- the pre-RS5 early `co_return` (lines 600-603). -/
  | noOpBelowRS5 : Outcome
  /-- the version-mismatch `co_return` (lines 612-616). -/
  | abandoned : Outcome
  /-- an AnimationPlay with this log index was constructed and installed. -/
  | installed : Nat → Outcome
deriving DecidableEq

mutual
/-- A `PlayAsync` request: the arguments plus the nested requests issued
    (through user callbacks) during this call's `Stop()`. -/
inductive Req : Type where
  | mk : ℚ → ℚ → Bool → ReqList → Req

/-- A list of nested requests (mutual with `Req`). -/
inductive ReqList : Type where
  | nil : ReqList
  | cons : Req → ReqList → ReqList
end

/-- Tail of `PlayAsync` past the version check (lines 618-651):
    `CompleteCurrentPlay()`; construct the AnimationPlay from the clamped
    sanitized values and install it as `m_nowPlaying`; start it if an
    animated visual is loaded. -/
def installPlay (st : AnimatedVisualPlayer) (s : ℚ × ℚ) (looped : Bool) :
    AnimatedVisualPlayer × Outcome :=
  let st := completeCurrentPlay st
  let pid := st.plays.length
  let newPlay := mkAnimationPlay st.duration (clampF s.1) (clampF s.2) looped
  let st := { st with
    plays := st.plays ++ [newPlay]
    constructorLog := st.constructorLog ++ [(clampF s.1, clampF s.2, looped)]
    nowPlaying := some pid }
  let st := if st.isAnimatedVisualLoaded then startPlay st pid else st
  (st, .installed pid)

mutual
/-- Method `AnimatedVisualPlayer::PlayAsync` (lines 598-664): RS5 guard; bump the
    version; `Stop()` (running any nested requests it re-enters);
    abandon on version mismatch; `CompleteCurrentPlay()`; boundary rewrites;
    construct the AnimationPlay from the clamped values and install it as
    `m_nowPlaying`; start it if content is loaded. -/
def requestPlay (st : AnimatedVisualPlayer) : Req → AnimatedVisualPlayer × Outcome
  | .mk fromProgress toProgress looped nested =>
    if st.rs5 = false then (st, .noOpBelowRS5)
    else
      let version := st.playAsyncVersion + 1
      let st := { st with playAsyncVersion := version }
      let st := stop st
      let st := runNested st nested
      if st.playAsyncVersion ≠ version then (st, .abandoned)
      else installPlay st (sanitize fromProgress toProgress) looped

/-- Run a list of nested requests in order, threading the state. -/
def runNested (st : AnimatedVisualPlayer) : ReqList → AnimatedVisualPlayer
  | .nil => st
  | .cons r rs => runNested (requestPlay st r).1 rs
end

/-- One user-or-visibility pause operation on a play. -/
inductive PauseOp where
  | userPause : PauseOp
  | userResume : PauseOp
  | hiding : PauseOp
  | unhiding : PauseOp
deriving DecidableEq

/-- Dispatch one pause operation to the corresponding AnimationPlay method. -/
def applyPauseOp (r : AnimationPlay) : PauseOp → AnimationPlay
  | .userPause => r.pause
  | .userResume => r.resume
  | .hiding => r.onHiding
  | .unhiding => r.onUnhiding

/-- Run a sequence of Pause/Resume/OnHiding/OnUnhiding calls on a play. -/
def runPauseOps (r : AnimationPlay) : List PauseOp → AnimationPlay
  | [] => r
  | op :: ops => runPauseOps (applyPauseOp r op) ops

/-- The dual-pause invariant: once the play has a controller, the underlying
    time driver is paused exactly when user-pause or visibility-pause is set. -/
def PauseConsistent (r : AnimationPlay) : Prop :=
  r.hasController = true → r.driverPaused = (r.isPaused || r.isPausedBecauseHidden)

/-- Every play in the log that has not completed is the current play. -/
def OneCurrent (plays : List AnimationPlay) (np : Option Nat) : Prop :=
  ∀ (pid : Nat) (r : AnimationPlay), plays[pid]? = some r → r.completed = false → np = some pid

/-- State form of `OneCurrent`: at most one uncompleted play exists, and it is
    the one registered as `m_nowPlaying`. -/
def AtMostOneCurrent (st : AnimatedVisualPlayer) : Prop :=
  OneCurrent st.plays st.nowPlaying

/-- Every play in the log has completed. -/
def AllCompleted (st : AnimatedVisualPlayer) : Prop :=
  ∀ (pid : Nat) (r : AnimationPlay), st.plays[pid]? = some r → r.completed = true

/-- The progress pair asserted by the spec sentence under study for the
    constructor arguments: clamp both inputs to [0,1] FIRST, then apply the
    two boundary rewrites to the clamped values.  (The source instead
    rewrites the raw values first and clamps afterwards; the two orders are
    compared in the theorems below.) -/
def specClampThenRewrite (fromProgress toProgress : ℚ) : ℚ × ℚ :=
  sanitize (clampF fromProgress) (clampF toProgress)

/-- A base state: RS5 host, content of duration 1000000 ticks (100ms) loaded,
    nothing playing. -/
def stBase : AnimatedVisualPlayer :=
  { rs5 := true
    progress := 0
    duration := 1000000
    playbackRate := 1
    isAnimatedVisualLoaded := true
    nowPlaying := none
    plays := []
    constructorLog := []
    playAsyncVersion := 0
    currentPlayFromProgress := 0
    isPlaying := false
    everIsPlayingTrue := false }

/-- State `stBase` on a pre-RS5 host. -/
def stPreRS5 : AnimatedVisualPlayer :=
  { stBase with rs5 := false }

/-- A started, looping, full-range play (as produced by the long path of
    `Start` on `stBase`). -/
def loopingPlay : AnimationPlay :=
  { fromProgress := 0
    toProgress := 1
    looped := true
    playDuration := 1000000
    isPaused := false
    isPausedBecauseHidden := false
    hasController := true
    driverPaused := false
    driverRate := 1
    driverPosition := 0
    batchSubscribed := false
    started := true
    completed := false }

/-- A state with an active looping play. -/
def stLooping : AnimatedVisualPlayer :=
  { stBase with
    nowPlaying := some 0
    plays := [loopingPlay]
    playAsyncVersion := 1
    isPlaying := true
    everIsPlayingTrue := true }

/-- A constructed-but-unstarted play over [1/2, 3/5] of the 1000000-tick
    content: playDuration 100000 ticks (10ms), below the 20ms floor. -/
def shortPlay : AnimationPlay :=
  { fromProgress := 1/2
    toProgress := 3/5
    looped := false
    playDuration := 100000
    isPaused := false
    isPausedBecauseHidden := false
    hasController := false
    driverPaused := false
    driverRate := 0
    driverPosition := 0
    batchSubscribed := false
    started := false
    completed := false }

/-- A state with `shortPlay` installed as current but not yet started. -/
def stShort : AnimatedVisualPlayer :=
  { stBase with
    nowPlaying := some 0
    plays := [shortPlay]
    playAsyncVersion := 1 }

/-- A started play record for exercising the pause operations. -/
def startedPlay : AnimationPlay :=
  { loopingPlay with looped := false, batchSubscribed := true }

/-! ### Helper lemmas -/

theorem length_modifyNth (f : AnimationPlay → AnimationPlay) :
    ∀ (n : Nat) (l : List AnimationPlay), (modifyNth f n l).length = l.length := by
  intro n l
  induction l generalizing n with
  | nil => cases n <;> rfl
  | cons r rs ih => cases n with
    | zero => rfl
    | succ m => simpa [modifyNth] using ih m

theorem getElem?_modifyNth (f : AnimationPlay → AnimationPlay) :
    ∀ (n j : Nat) (l : List AnimationPlay),
      (modifyNth f n l)[j]? = if j = n then (l[n]?).map f else l[j]? := by
  intro n j l
  induction l generalizing n j with
  | nil => cases n <;> cases j <;> simp [modifyNth]
  | cons r rs ih =>
    cases n with
    | zero => cases j <;> simp [modifyNth]
    | succ m =>
      cases j with
      | zero => simp [modifyNth]
      | succ i => simpa [modifyNth] using ih m i

theorem oneCurrent_modify (f : AnimationPlay → AnimationPlay)
    (hf : ∀ r, (f r).completed = r.completed)
    (plays : List AnimationPlay) (np : Option Nat) (pid : Nat)
    (h : OneCurrent plays np) : OneCurrent (modifyNth f pid plays) np := by
  intro j r hg hc
  rw [getElem?_modifyNth] at hg
  by_cases hj : j = pid
  · subst hj
    rw [if_pos rfl] at hg
    cases hpe : plays[j]? with
    | none => rw [hpe] at hg; exact absurd hg (by simp)
    | some r0 =>
      rw [hpe] at hg
      have hfr : f r0 = r := by simpa using hg
      have hc0 : r0.completed = false := by
        have hcc := hf r0
        rw [hfr] at hcc
        rw [← hcc]
        exact hc
      exact h j r0 hpe hc0
  · rw [if_neg hj] at hg
    exact h j r hg hc

theorem oneCurrent_markCompleted
    (plays : List AnimationPlay) (np : Option Nat) (pid : Nat)
    (h : OneCurrent plays np) :
    OneCurrent (modifyNth (fun r => { r with completed := true }) pid plays) np := by
  intro j r hg hc
  rw [getElem?_modifyNth] at hg
  by_cases hj : j = pid
  · subst hj
    rw [if_pos rfl] at hg
    cases hpe : plays[j]? with
    | none => rw [hpe] at hg; exact absurd hg (by simp)
    | some r0 =>
      rw [hpe] at hg
      have hfr : ({ r0 with completed := true } : AnimationPlay) = r := by simpa using hg
      rw [← hfr] at hc
      simp at hc
  · rw [if_neg hj] at hg
    exact h j r hg hc

theorem completePlay_current (st : AnimatedVisualPlayer) (pid : Nat)
    (h : st.nowPlaying = some pid) :
    completePlay st pid = { st with
      plays := modifyNth (fun r => { r with completed := true }) pid
        (modifyNth (fun r => { r with batchSubscribed := false }) pid st.plays)
      nowPlaying := none
      isPlaying := false } := by
  simp [completePlay, modifyPlay, setIsPlaying, h]

theorem completePlay_not_current (st : AnimatedVisualPlayer) (pid : Nat)
    (h : ¬st.nowPlaying = some pid) :
    completePlay st pid = { st with
      plays := modifyNth (fun r => { r with completed := true }) pid
        (modifyNth (fun r => { r with batchSubscribed := false }) pid st.plays) } := by
  simp [completePlay, modifyPlay, setIsPlaying, h]

theorem atMostOne_completePlay (st : AnimatedVisualPlayer) (pid : Nat)
    (h : AtMostOneCurrent st) : AtMostOneCurrent (completePlay st pid) := by
  by_cases hnp : st.nowPlaying = some pid
  · rw [completePlay_current st pid hnp]
    intro j r hg hc
    exfalso
    rw [getElem?_modifyNth] at hg
    by_cases hj : j = pid
    · subst hj
      rw [if_pos rfl] at hg
      cases hpe : (modifyNth (fun r => { r with batchSubscribed := false }) j st.plays)[j]? with
      | none => rw [hpe] at hg; exact absurd hg (by simp)
      | some r0 =>
        rw [hpe] at hg
        have hfr : ({ r0 with completed := true } : AnimationPlay) = r := by simpa using hg
        rw [← hfr] at hc
        simp at hc
    · rw [if_neg hj] at hg
      rw [getElem?_modifyNth, if_neg hj] at hg
      have := h j r hg hc
      rw [hnp] at this
      exact hj (Option.some.inj this).symm
  · rw [completePlay_not_current st pid hnp]
    exact oneCurrent_markCompleted _ _ _
      (oneCurrent_modify (fun r => { r with batchSubscribed := false }) (fun _ => rfl)
        st.plays st.nowPlaying pid h)

theorem allCompleted_completeCurrentPlay (st : AnimatedVisualPlayer)
    (h : AtMostOneCurrent st) : AllCompleted (completeCurrentPlay st) := by
  cases hnp : st.nowPlaying with
  | none =>
    have he : completeCurrentPlay st = st := by unfold completeCurrentPlay; rw [hnp]
    rw [he]
    intro j r hg
    cases hrc : r.completed with
    | true => rfl
    | false => exact absurd ((h j r hg hrc).symm.trans hnp) (by simp)
  | some pid =>
    have he : completeCurrentPlay st = completePlay st pid := by
      unfold completeCurrentPlay; rw [hnp]
    rw [he, completePlay_current st pid hnp]
    intro j r hg
    rw [getElem?_modifyNth] at hg
    by_cases hj : j = pid
    · subst hj
      rw [if_pos rfl] at hg
      cases hpe : (modifyNth (fun r => { r with batchSubscribed := false }) j st.plays)[j]? with
      | none => rw [hpe] at hg; exact absurd hg (by simp)
      | some r0 =>
        rw [hpe] at hg
        have hfr : ({ r0 with completed := true } : AnimationPlay) = r := by simpa using hg
        rw [← hfr]
    · rw [if_neg hj] at hg
      rw [getElem?_modifyNth, if_neg hj] at hg
      cases hrc : r.completed with
      | true => rfl
      | false =>
        have := (h j r hg hrc).symm.trans hnp
        exact absurd (Option.some.inj this) hj

theorem setProgress_preRS5 (st : AnimatedVisualPlayer) (p : ℚ)
    (h5 : st.rs5 = false) : setProgress st p = st := by
  unfold setProgress
  rw [if_pos h5]

theorem setProgress_none (st : AnimatedVisualPlayer) (p : ℚ)
    (h5 : ¬st.rs5 = false) (h : st.nowPlaying = none) :
    setProgress st p = { st with progress := clampF p } := by
  simp only [setProgress, if_neg h5, h]

theorem setProgress_some (st : AnimatedVisualPlayer) (p : ℚ) (pid : Nat)
    (h5 : ¬st.rs5 = false) (h : st.nowPlaying = some pid) :
    setProgress st p = completePlay { st with progress := clampF p } pid := by
  simp only [setProgress, if_neg h5, h]

theorem atMostOne_setProgress (st : AnimatedVisualPlayer) (p : ℚ)
    (h : AtMostOneCurrent st) : AtMostOneCurrent (setProgress st p) := by
  by_cases h5 : st.rs5 = false
  · rw [setProgress_preRS5 st p h5]; exact h
  · cases hnp : st.nowPlaying with
    | none =>
      rw [setProgress_none st p h5 hnp]
      exact h
    | some pid =>
      rw [setProgress_some st p pid h5 hnp]
      exact atMostOne_completePlay _ pid h

theorem atMostOne_stop (st : AnimatedVisualPlayer)
    (h : AtMostOneCurrent st) : AtMostOneCurrent (stop st) := by
  unfold stop
  split
  · exact h
  · cases hnp : st.nowPlaying with
    | none => exact h
    | some pid => exact atMostOne_setProgress _ _ h

theorem startPlay_none (st : AnimatedVisualPlayer) (pid : Nat)
    (h : st.plays[pid]? = none) : startPlay st pid = st := by
  unfold startPlay
  rw [h]

theorem startPlay_short (st : AnimatedVisualPlayer) (pid : Nat) (r : AnimationPlay)
    (h : st.plays[pid]? = some r) (hd : r.playDuration < minPlayDurationTicks) :
    startPlay st pid = setProgress st r.fromProgress := by
  unfold startPlay
  simp only [h]
  rw [if_pos hd]

theorem startPlay_long (st : AnimatedVisualPlayer) (pid : Nat) (r : AnimationPlay)
    (h : st.plays[pid]? = some r) (hd : ¬r.playDuration < minPlayDurationTicks) :
    startPlay st pid = setIsPlaying (modifyPlay st pid (startUpdate st.playbackRate)) true := by
  unfold startPlay
  simp only [h]
  rw [if_neg hd]

theorem atMostOne_startPlay (st : AnimatedVisualPlayer) (pid : Nat)
    (h : AtMostOneCurrent st) : AtMostOneCurrent (startPlay st pid) := by
  cases hpe : st.plays[pid]? with
  | none => rw [startPlay_none st pid hpe]; exact h
  | some r =>
    by_cases hd : r.playDuration < minPlayDurationTicks
    · rw [startPlay_short st pid r hpe hd]
      exact atMostOne_setProgress _ _ h
    · rw [startPlay_long st pid r hpe hd]
      exact oneCurrent_modify (startUpdate st.playbackRate) (fun _ => rfl)
        st.plays st.nowPlaying pid h

theorem oneCurrent_append_fresh (st : AnimatedVisualPlayer)
    (hA : AllCompleted st) (newPlay : AnimationPlay) :
    OneCurrent (st.plays ++ [newPlay]) (some st.plays.length) := by
  intro j r hg hc
  rcases Nat.lt_trichotomy j st.plays.length with hlt | heq | hgt
  · rw [List.getElem?_append_left hlt] at hg
    exact absurd (hA j r hg) (by simp [hc])
  · subst heq
    rw [List.getElem?_concat_length] at hg
  · have hlen : (st.plays ++ [newPlay]).length ≤ j := by
      simp only [List.length_append, List.length_singleton]
      omega
    rw [List.getElem?_eq_none hlen] at hg
    cases hg

theorem atMostOne_installPlay (st : AnimatedVisualPlayer) (s : ℚ × ℚ) (l : Bool)
    (h : AtMostOneCurrent st) : AtMostOneCurrent (installPlay st s l).1 := by
  have hAll := allCompleted_completeCurrentPlay st h
  have hfresh := oneCurrent_append_fresh (completeCurrentPlay st) hAll
    (mkAnimationPlay (completeCurrentPlay st).duration (clampF s.1) (clampF s.2) l)
  simp only [installPlay]
  by_cases hl : (completeCurrentPlay st).isAnimatedVisualLoaded = true
  · rw [if_pos hl]
    exact atMostOne_startPlay _ _ hfresh
  · rw [if_neg hl]
    exact hfresh

mutual
theorem atMostOne_requestPlay : ∀ (r : Req) (st : AnimatedVisualPlayer),
    AtMostOneCurrent st → AtMostOneCurrent (requestPlay st r).1
  | .mk f t l n, st, h => by
    simp only [requestPlay]
    by_cases h5 : st.rs5 = false
    · rw [if_pos h5]
      exact h
    · rw [if_neg h5]
      have hst1 : AtMostOneCurrent { st with playAsyncVersion := st.playAsyncVersion + 1 } := h
      have hnest := atMostOne_runNested n _ (atMostOne_stop _ hst1)
      split
      · exact hnest
      · exact atMostOne_installPlay _ _ _ hnest

theorem atMostOne_runNested : ∀ (rs : ReqList) (st : AnimatedVisualPlayer),
    AtMostOneCurrent st → AtMostOneCurrent (runNested st rs)
  | .nil, _, h => h
  | .cons r rs, st, h => atMostOne_runNested rs _ (atMostOne_requestPlay r st h)
end

theorem clampF_of_mem (x : ℚ) (h0 : 0 ≤ x) (h1 : x ≤ 1) : clampF x = x := by
  unfold clampF
  split_ifs <;> first | rfl | linarith

theorem sanitize_to_zero (x : ℚ) (hx : 0 < x) : sanitize x 0 = sanitize x 1 := by
  norm_num [sanitize, hx]

theorem sanitize_from_one (y : ℚ) (hy : 0 < y) : sanitize 1 y = sanitize 0 y := by
  norm_num [sanitize, hy, hy.ne']

theorem playAsyncVersion_completePlay (st : AnimatedVisualPlayer) (pid : Nat) :
    (completePlay st pid).playAsyncVersion = st.playAsyncVersion := by
  by_cases hnp : st.nowPlaying = some pid
  · rw [completePlay_current st pid hnp]
  · rw [completePlay_not_current st pid hnp]

theorem playAsyncVersion_setProgress (st : AnimatedVisualPlayer) (p : ℚ) :
    (setProgress st p).playAsyncVersion = st.playAsyncVersion := by
  by_cases h5 : st.rs5 = false
  · rw [setProgress_preRS5 st p h5]
  · cases hnp : st.nowPlaying with
    | none => rw [setProgress_none st p h5 hnp]
    | some pid => rw [setProgress_some st p pid h5 hnp, playAsyncVersion_completePlay]

theorem playAsyncVersion_stop (st : AnimatedVisualPlayer) :
    (stop st).playAsyncVersion = st.playAsyncVersion := by
  unfold stop
  split
  · rfl
  · cases hnp : st.nowPlaying with
    | none => rfl
    | some pid => exact playAsyncVersion_setProgress _ _

theorem constructorLog_completePlay (st : AnimatedVisualPlayer) (pid : Nat) :
    (completePlay st pid).constructorLog = st.constructorLog := by
  by_cases hnp : st.nowPlaying = some pid
  · rw [completePlay_current st pid hnp]
  · rw [completePlay_not_current st pid hnp]

theorem constructorLog_setProgress (st : AnimatedVisualPlayer) (p : ℚ) :
    (setProgress st p).constructorLog = st.constructorLog := by
  by_cases h5 : st.rs5 = false
  · rw [setProgress_preRS5 st p h5]
  · cases hnp : st.nowPlaying with
    | none => rw [setProgress_none st p h5 hnp]
    | some pid => rw [setProgress_some st p pid h5 hnp, constructorLog_completePlay]

theorem constructorLog_stop (st : AnimatedVisualPlayer) :
    (stop st).constructorLog = st.constructorLog := by
  unfold stop
  split
  · rfl
  · cases hnp : st.nowPlaying with
    | none => rfl
    | some pid => exact constructorLog_setProgress _ _

theorem constructorLog_completeCurrentPlay (st : AnimatedVisualPlayer) :
    (completeCurrentPlay st).constructorLog = st.constructorLog := by
  unfold completeCurrentPlay
  cases hnp : st.nowPlaying with
  | none => rfl
  | some pid => exact constructorLog_completePlay _ _

theorem constructorLog_startPlay (st : AnimatedVisualPlayer) (pid : Nat) :
    (startPlay st pid).constructorLog = st.constructorLog := by
  cases hpe : st.plays[pid]? with
  | none => rw [startPlay_none st pid hpe]
  | some r =>
    by_cases hd : r.playDuration < minPlayDurationTicks
    · rw [startPlay_short st pid r hpe hd]
      exact constructorLog_setProgress _ _
    · rw [startPlay_long st pid r hpe hd]
      rfl

theorem constructorLog_installPlay (st : AnimatedVisualPlayer) (s : ℚ × ℚ) (l : Bool) :
    (installPlay st s l).1.constructorLog
      = st.constructorLog ++ [(clampF s.1, clampF s.2, l)] := by
  simp only [installPlay]
  by_cases hl : (completeCurrentPlay st).isAnimatedVisualLoaded = true
  · rw [if_pos hl, constructorLog_startPlay]
    show (completeCurrentPlay st).constructorLog ++ _ = _
    rw [constructorLog_completeCurrentPlay]
  · rw [if_neg hl]
    show (completeCurrentPlay st).constructorLog ++ _ = _
    rw [constructorLog_completeCurrentPlay]

theorem pauseConsistent_applyPauseOp (op : PauseOp) (r : AnimationPlay)
    (h : PauseConsistent r) : PauseConsistent (applyPauseOp r op) := by
  unfold PauseConsistent at *
  cases op <;>
    simp only [applyPauseOp, AnimationPlay.pause, AnimationPlay.resume,
      AnimationPlay.onHiding, AnimationPlay.onUnhiding] <;>
    split_ifs <;> intro hc <;> simp_all

theorem coreFields_completePlay (st : AnimatedVisualPlayer) (pid : Nat) :
    (completePlay st pid).rs5 = st.rs5
    ∧ (completePlay st pid).duration = st.duration
    ∧ (completePlay st pid).isAnimatedVisualLoaded = st.isAnimatedVisualLoaded
    ∧ (completePlay st pid).currentPlayFromProgress = st.currentPlayFromProgress := by
  by_cases hnp : st.nowPlaying = some pid
  · rw [completePlay_current st pid hnp]
    exact ⟨rfl, rfl, rfl, rfl⟩
  · rw [completePlay_not_current st pid hnp]
    exact ⟨rfl, rfl, rfl, rfl⟩

theorem coreFields_setProgress (st : AnimatedVisualPlayer) (p : ℚ) :
    (setProgress st p).rs5 = st.rs5
    ∧ (setProgress st p).duration = st.duration
    ∧ (setProgress st p).isAnimatedVisualLoaded = st.isAnimatedVisualLoaded
    ∧ (setProgress st p).currentPlayFromProgress = st.currentPlayFromProgress := by
  by_cases h5 : st.rs5 = false
  · rw [setProgress_preRS5 st p h5]
    exact ⟨rfl, rfl, rfl, rfl⟩
  · cases hnp : st.nowPlaying with
    | none =>
      rw [setProgress_none st p h5 hnp]
      exact ⟨rfl, rfl, rfl, rfl⟩
    | some pid =>
      rw [setProgress_some st p pid h5 hnp]
      exact coreFields_completePlay _ _

theorem coreFields_stop (st : AnimatedVisualPlayer) :
    (stop st).rs5 = st.rs5
    ∧ (stop st).duration = st.duration
    ∧ (stop st).isAnimatedVisualLoaded = st.isAnimatedVisualLoaded
    ∧ (stop st).currentPlayFromProgress = st.currentPlayFromProgress := by
  unfold stop
  split
  · exact ⟨rfl, rfl, rfl, rfl⟩
  · cases hnp : st.nowPlaying with
    | none => exact ⟨rfl, rfl, rfl, rfl⟩
    | some pid => exact coreFields_setProgress _ _

theorem coreFields_completeCurrentPlay (st : AnimatedVisualPlayer) :
    (completeCurrentPlay st).rs5 = st.rs5
    ∧ (completeCurrentPlay st).duration = st.duration
    ∧ (completeCurrentPlay st).isAnimatedVisualLoaded = st.isAnimatedVisualLoaded
    ∧ (completeCurrentPlay st).currentPlayFromProgress = st.currentPlayFromProgress := by
  cases hnp : st.nowPlaying with
  | none =>
    have he : completeCurrentPlay st = st := by unfold completeCurrentPlay; rw [hnp]
    rw [he]
    exact ⟨rfl, rfl, rfl, rfl⟩
  | some pid =>
    have he : completeCurrentPlay st = completePlay st pid := by
      unfold completeCurrentPlay; rw [hnp]
    rw [he]
    exact coreFields_completePlay _ _

theorem stop_active (st : AnimatedVisualPlayer) (pid : Nat)
    (h5 : st.rs5 = true) (hnp : st.nowPlaying = some pid) :
    (stop st).progress = clampF st.currentPlayFromProgress
    ∧ (stop st).isPlaying = false
    ∧ (stop st).rs5 = st.rs5
    ∧ (stop st).duration = st.duration
    ∧ (stop st).isAnimatedVisualLoaded = st.isAnimatedVisualLoaded
    ∧ (stop st).currentPlayFromProgress = st.currentPlayFromProgress := by
  have h5' : ¬st.rs5 = false := by simp [h5]
  have he : stop st = setProgress st st.currentPlayFromProgress := by
    unfold stop; rw [if_neg h5', hnp]
  rw [he, setProgress_some st st.currentPlayFromProgress pid h5' hnp,
    completePlay_current { st with progress := clampF st.currentPlayFromProgress } pid hnp]
  exact ⟨rfl, rfl, rfl, rfl, rfl, rfl⟩

theorem installPlay_started (st : AnimatedVisualPlayer) (s : ℚ × ℚ) (l : Bool)
    (hl : st.isAnimatedVisualLoaded = true)
    (hd : ¬(mkAnimationPlay st.duration (clampF s.1) (clampF s.2) l).playDuration
        < minPlayDurationTicks) :
    (installPlay st s l).1.isPlaying = true
    ∧ (installPlay st s l).1.nowPlaying.isSome = true
    ∧ (installPlay st s l).1.rs5 = st.rs5
    ∧ (installPlay st s l).1.duration = st.duration
    ∧ (installPlay st s l).1.isAnimatedVisualLoaded = st.isAnimatedVisualLoaded
    ∧ (installPlay st s l).1.currentPlayFromProgress = st.currentPlayFromProgress := by
  have hB := coreFields_completeCurrentPlay st
  have hBl : (completeCurrentPlay st).isAnimatedVisualLoaded = true := hB.2.2.1.trans hl
  have hd' : ¬(mkAnimationPlay (completeCurrentPlay st).duration (clampF s.1)
      (clampF s.2) l).playDuration < minPlayDurationTicks := by
    rw [hB.2.1]
    exact hd
  simp only [installPlay]
  rw [if_pos hBl]
  have he := startPlay_long
    { completeCurrentPlay st with
        plays := (completeCurrentPlay st).plays
          ++ [mkAnimationPlay (completeCurrentPlay st).duration (clampF s.1) (clampF s.2) l]
        constructorLog := (completeCurrentPlay st).constructorLog
          ++ [(clampF s.1, clampF s.2, l)]
        nowPlaying := some (completeCurrentPlay st).plays.length }
    (completeCurrentPlay st).plays.length
    (mkAnimationPlay (completeCurrentPlay st).duration (clampF s.1) (clampF s.2) l)
    (List.getElem?_concat_length _ _) hd'
  rw [he]
  exact ⟨rfl, rfl, hB.1, hB.2.1, hB.2.2.1, hB.2.2.2⟩

theorem requestPlay_nil_started (st : AnimatedVisualPlayer) (f t : ℚ) (l : Bool)
    (h5 : st.rs5 = true)
    (hl : st.isAnimatedVisualLoaded = true)
    (hd : ¬(mkAnimationPlay st.duration (clampF (sanitize f t).1)
        (clampF (sanitize f t).2) l).playDuration < minPlayDurationTicks) :
    (requestPlay st (.mk f t l ReqList.nil)).1.isPlaying = true
    ∧ (requestPlay st (.mk f t l ReqList.nil)).1.nowPlaying.isSome = true
    ∧ (requestPlay st (.mk f t l ReqList.nil)).1.rs5 = st.rs5
    ∧ (requestPlay st (.mk f t l ReqList.nil)).1.duration = st.duration
    ∧ (requestPlay st (.mk f t l ReqList.nil)).1.isAnimatedVisualLoaded
        = st.isAnimatedVisualLoaded
    ∧ (requestPlay st (.mk f t l ReqList.nil)).1.currentPlayFromProgress
        = st.currentPlayFromProgress := by
  have h5' : ¬st.rs5 = false := by simp [h5]
  simp only [requestPlay, runNested]
  rw [if_neg h5']
  have hv : ¬((stop { st with playAsyncVersion := st.playAsyncVersion + 1 }).playAsyncVersion
      ≠ st.playAsyncVersion + 1) := by
    rw [playAsyncVersion_stop]
    exact fun hne => hne rfl
  rw [if_neg hv]
  have hAf := coreFields_stop { st with playAsyncVersion := st.playAsyncVersion + 1 }
  have hl' : (stop { st with
      playAsyncVersion := st.playAsyncVersion + 1 }).isAnimatedVisualLoaded = true :=
    hAf.2.2.1.trans hl
  have hd' : ¬(mkAnimationPlay (stop { st with
      playAsyncVersion := st.playAsyncVersion + 1 }).duration
      (clampF (sanitize f t).1) (clampF (sanitize f t).2) l).playDuration
      < minPlayDurationTicks := by
    rw [hAf.2.1]
    exact hd
  have hres := installPlay_started
    (stop { st with playAsyncVersion := st.playAsyncVersion + 1 }) (sanitize f t) l hl' hd'
  exact ⟨hres.1, hres.2.1, hres.2.2.1.trans hAf.1, hres.2.2.2.1.trans hAf.2.1,
    hres.2.2.2.2.1.trans hAf.2.2.1, hres.2.2.2.2.2.trans hAf.2.2.2⟩

/-! ### Claim theorems -/

/-- C4: for all `from, to` in [0,1], the duration computed for a Play equals
    `(to - from) * contentDuration` when `from ≤ to`, and
    `((1 - from) + to) * contentDuration` when `from > to` (the wrapping
    case). -/
theorem c4_play_duration_formula (d f t : ℚ) (l : Bool)
    (h0f : 0 ≤ f) (h1f : f ≤ 1) (h0t : 0 ≤ t) (h1t : t ≤ 1) :
    (f ≤ t → (mkAnimationPlay d f t l).playDuration = (t - f) * d)
    ∧ (t < f → (mkAnimationPlay d f t l).playDuration = ((1 - f) + t) * d) := by
  constructor
  · intro hle
    simp only [mkAnimationPlay]
    rw [if_neg (not_lt.mpr hle)]
    ring
  · intro hlt
    simp only [mkAnimationPlay]
    rw [if_pos hlt]
    ring

theorem c4_play_duration_formula_witness :
    ((0:ℚ) ≤ 1/4 ∧ (1/4:ℚ) ≤ 1 ∧ (0:ℚ) ≤ 3/4 ∧ (3/4:ℚ) ≤ 1)
    ∧ (((1/4:ℚ) ≤ 3/4 →
          (mkAnimationPlay 1000000 (1/4) (3/4) false).playDuration = (3/4 - 1/4) * 1000000)
       ∧ ((3/4:ℚ) < 1/4 →
          (mkAnimationPlay 1000000 (1/4) (3/4) false).playDuration = ((1 - 1/4) + 3/4) * 1000000)) :=
  ⟨⟨by norm_num, by norm_num, by norm_num, by norm_num⟩,
   c4_play_duration_formula 1000000 (1/4) (3/4) false
     (by norm_num) (by norm_num) (by norm_num) (by norm_num)⟩

/-- C7: for every play and every sequence of Pause/Resume/OnHiding/OnUnhiding
    calls, the underlying time driver is suspended exactly when user-pause OR
    visibility-pause is set (whenever the play has a controller).  In
    particular, setting both pauses and clearing only one leaves the driver
    paused, and clearing both resumes it. -/
theorem c7_dual_pause_invariant (r : AnimationPlay) (ops : List PauseOp)
    (h : PauseConsistent r) : PauseConsistent (runPauseOps r ops) := by
  induction ops generalizing r with
  | nil => exact h
  | cons op ops ih => exact ih _ (pauseConsistent_applyPauseOp op r h)

theorem c7_dual_pause_invariant_witness :
    PauseConsistent startedPlay
    ∧ PauseConsistent (runPauseOps startedPlay
        [PauseOp.userPause, PauseOp.hiding, PauseOp.userResume]) :=
  ⟨fun _ => rfl, c7_dual_pause_invariant startedPlay
    [PauseOp.userPause, PauseOp.hiding, PauseOp.userResume] (fun _ => rfl)⟩

/-- C10: on a pre-RS5 OS, every public playback operation is a complete
    no-op on the controller state: PlayAsync returns immediately (already
    completed, constructing no play), and Pause, Resume, SetProgress and
    Stop return with the state untouched. -/
theorem c10_preRS5_noop (st : AnimatedVisualPlayer) (h : st.rs5 = false) :
    (∀ (f t : ℚ) (l : Bool) (n : ReqList),
        requestPlay st (.mk f t l n) = (st, Outcome.noOpBelowRS5))
    ∧ pause st = st
    ∧ resume st = st
    ∧ (∀ p : ℚ, setProgress st p = st)
    ∧ stop st = st := by
  refine ⟨?_, ?_, ?_, ?_, ?_⟩
  · intro f t l n
    simp only [requestPlay]
    rw [if_pos h]
  · unfold pause
    rw [if_pos h]
  · unfold resume
    rw [if_pos h]
  · intro p
    exact setProgress_preRS5 st p h
  · unfold stop
    rw [if_pos h]

theorem c10_preRS5_noop_witness :
    stPreRS5.rs5 = false
    ∧ ((∀ (f t : ℚ) (l : Bool) (n : ReqList),
          requestPlay stPreRS5 (.mk f t l n) = (stPreRS5, Outcome.noOpBelowRS5))
       ∧ pause stPreRS5 = stPreRS5
       ∧ resume stPreRS5 = stPreRS5
       ∧ (∀ p : ℚ, setProgress stPreRS5 p = stPreRS5)
       ∧ stop stPreRS5 = stPreRS5) :=
  ⟨rfl, c10_preRS5_noop stPreRS5 rfl⟩

/-- C3: at most one play is ever current.  Any `PlayAsync` call (with any
    tree of reentrant nested requests issued during its `Stop()`) preserves
    the invariant that every uncompleted play in the construction log is the
    single registered current play; and when the version check fails the
    call abandons itself, returning exactly the state produced by the nested
    activity — constructing and installing nothing itself. -/
theorem c3_at_most_one_current_play (f t : ℚ) (l : Bool) (n : ReqList)
    (st : AnimatedVisualPlayer) (h : AtMostOneCurrent st) :
    AtMostOneCurrent (requestPlay st (.mk f t l n)).1
    ∧ ((requestPlay st (.mk f t l n)).2 = Outcome.abandoned →
        requestPlay st (.mk f t l n)
          = (runNested (stop { st with playAsyncVersion := st.playAsyncVersion + 1 }) n,
             Outcome.abandoned)) := by
  refine ⟨atMostOne_requestPlay _ st h, ?_⟩
  intro habandoned
  simp only [requestPlay] at habandoned ⊢
  by_cases h5 : st.rs5 = false
  · rw [if_pos h5] at habandoned
    exact absurd habandoned (by simp)
  · rw [if_neg h5] at habandoned ⊢
    split at habandoned
    · split
      · rfl
      · simp_all
    · rw [show (installPlay (runNested
            (stop { st with playAsyncVersion := st.playAsyncVersion + 1 }) n)
            (sanitize f t) l).2
          = Outcome.installed (completeCurrentPlay (runNested
              (stop { st with playAsyncVersion := st.playAsyncVersion + 1 }) n)).plays.length
          from by simp [installPlay]] at habandoned
      exact absurd habandoned (by simp)

theorem c3_at_most_one_current_play_witness :
    AtMostOneCurrent stBase
    ∧ (AtMostOneCurrent (requestPlay stBase (.mk 0 1 false ReqList.nil)).1
       ∧ ((requestPlay stBase (.mk 0 1 false ReqList.nil)).2 = Outcome.abandoned →
           requestPlay stBase (.mk 0 1 false ReqList.nil)
             = (runNested (stop { stBase with
                  playAsyncVersion := stBase.playAsyncVersion + 1 }) ReqList.nil,
                Outcome.abandoned))) := by
  have hinv : AtMostOneCurrent stBase := by
    intro pid r hg hc
    simp [stBase] at hg
  exact ⟨hinv, c3_at_most_one_current_play 0 1 false ReqList.nil stBase hinv⟩

/-- C5: a request `[x→0]` with `x > 0` behaves identically to `[x→1]`, and a
    request `[1→y]` with `y > 0` behaves identically to `[0→y]` — the whole
    `PlayAsync` call computes the same state and outcome, for every starting
    state, loop flag and reentrancy pattern. -/
theorem c5_boundary_rewrite_equivalence (x y : ℚ) (hx : 0 < x) (hy : 0 < y) :
    (∀ (st : AnimatedVisualPlayer) (l : Bool) (n : ReqList),
        requestPlay st (.mk x 0 l n) = requestPlay st (.mk x 1 l n))
    ∧ (∀ (st : AnimatedVisualPlayer) (l : Bool) (n : ReqList),
        requestPlay st (.mk 1 y l n) = requestPlay st (.mk 0 y l n)) := by
  constructor
  · intro st l n
    simp only [requestPlay]
    rw [sanitize_to_zero x hx]
  · intro st l n
    simp only [requestPlay]
    rw [sanitize_from_one y hy]

theorem c5_boundary_rewrite_equivalence_witness :
    ((0:ℚ) < 2/5 ∧ (0:ℚ) < 3/10)
    ∧ ((∀ (st : AnimatedVisualPlayer) (l : Bool) (n : ReqList),
          requestPlay st (.mk (2/5) 0 l n) = requestPlay st (.mk (2/5) 1 l n))
       ∧ (∀ (st : AnimatedVisualPlayer) (l : Bool) (n : ReqList),
          requestPlay st (.mk 1 (3/10) l n) = requestPlay st (.mk 0 (3/10) l n))) :=
  ⟨⟨by norm_num, by norm_num⟩,
   c5_boundary_rewrite_equivalence (2/5) (3/10) (by norm_num) (by norm_num)⟩

/-- C2: `SetProgress(p)` clamps `p` to [0,1], writes the clamped value to the
    shared Progress, and synchronously completes any currently active play —
    with no assumption on the play's loop flag, so in particular a looping
    play — leaving progress equal to the clamped `p` and IsPlaying false.
    (The hypothesis ties IsPlaying to the existence of a current play, which
    holds in every reachable state.) -/
theorem c2_setProgress_completes_and_clamps (st : AnimatedVisualPlayer) (p : ℚ)
    (h5 : st.rs5 = true)
    (hlink : st.nowPlaying = none → st.isPlaying = false) :
    (setProgress st p).progress = clampF p
    ∧ (setProgress st p).isPlaying = false
    ∧ (setProgress st p).nowPlaying = none
    ∧ (∀ (pid : Nat) (r : AnimationPlay), st.nowPlaying = some pid →
        st.plays[pid]? = some r →
        (setProgress st p).plays[pid]?
          = some { r with batchSubscribed := false, completed := true }) := by
  have h5' : ¬st.rs5 = false := by simp [h5]
  cases hnp : st.nowPlaying with
  | none =>
    rw [setProgress_none st p h5' hnp]
    refine ⟨rfl, hlink hnp, hnp, ?_⟩
    intro pid r hpid _
    exact absurd hpid (by simp)
  | some pid0 =>
    rw [setProgress_some st p pid0 h5' hnp]
    rw [completePlay_current { st with progress := clampF p } pid0 hnp]
    refine ⟨rfl, rfl, rfl, ?_⟩
    intro pid r hpid hg
    obtain rfl : pid0 = pid := Option.some.inj hpid
    have hX : ({ st with progress := clampF p } : AnimatedVisualPlayer).plays = st.plays := rfl
    rw [getElem?_modifyNth, if_pos rfl, getElem?_modifyNth, if_pos rfl, hX, hg]
    rfl

theorem c2_setProgress_completes_and_clamps_witness :
    (stLooping.rs5 = true
      ∧ (stLooping.nowPlaying = none → stLooping.isPlaying = false)
      ∧ stLooping.nowPlaying = some 0
      ∧ stLooping.plays[0]? = some loopingPlay
      ∧ loopingPlay.looped = true)
    ∧ ((setProgress stLooping (2/5)).progress = clampF (2/5)
       ∧ (setProgress stLooping (2/5)).isPlaying = false
       ∧ (setProgress stLooping (2/5)).nowPlaying = none
       ∧ (∀ (pid : Nat) (r : AnimationPlay), stLooping.nowPlaying = some pid →
           stLooping.plays[pid]? = some r →
           (setProgress stLooping (2/5)).plays[pid]?
             = some { r with batchSubscribed := false, completed := true })) :=
  ⟨⟨rfl, fun hx => absurd hx (by simp [stLooping, stBase]), rfl, rfl, rfl⟩,
   c2_setProgress_completes_and_clamps stLooping (2/5) rfl
     (fun hx => absurd hx (by simp [stLooping, stBase]))⟩

/-- C6 (counterexample): the claim prescribes clamp-first-then-rewrite, but
    for the out-of-range request `(1.5, 0.3)` the code's play is constructed
    with `fromProgress = 1` (rewrite-then-clamp), while clamp-then-rewrite
    would give `fromProgress = 0`. -/
theorem c6_clamp_then_rewrite_counterexample :
    (requestPlay { stBase with isAnimatedVisualLoaded := false }
        (.mk (3/2) (3/10) false ReqList.nil)).1.constructorLog
      = [(1, 3/10, false)]
    ∧ specClampThenRewrite (3/2) (3/10) = (0, 3/10)
    ∧ ((1 : ℚ), (3/10 : ℚ), false) ≠ ((0 : ℚ), (3/10 : ℚ), false) := by
  refine ⟨?_, ?_, ?_⟩
  · norm_num [requestPlay, runNested, stop, setProgress, completeCurrentPlay, completePlay,
      installPlay, startPlay, startUpdate, mkAnimationPlay, sanitize, clampF,
      minPlayDurationTicks, modifyPlay, modifyNth, setIsPlaying, stBase]
  · norm_num [specClampThenRewrite, sanitize, clampF]
  · norm_num

/-- C6 (amended): for every input pair, including out-of-range values, the
    play constructed by a non-reentrant `PlayAsync` receives the values
    obtained by applying the two boundary rewrites to the RAW inputs and
    then clamping the results to [0,1] (for in-range inputs this coincides
    with the claim's clamp-then-rewrite order). -/
theorem c6_constructed_play_args (st : AnimatedVisualPlayer) (f t : ℚ) (l : Bool)
    (h5 : st.rs5 = true) :
    (requestPlay st (.mk f t l ReqList.nil)).1.constructorLog
      = st.constructorLog ++ [(clampF (sanitize f t).1, clampF (sanitize f t).2, l)] := by
  have h5' : ¬st.rs5 = false := by simp [h5]
  simp only [requestPlay, runNested]
  rw [if_neg h5']
  have hv : ¬((stop { st with playAsyncVersion := st.playAsyncVersion + 1 }).playAsyncVersion
      ≠ st.playAsyncVersion + 1) := by
    rw [playAsyncVersion_stop]
    exact fun hne => hne rfl
  rw [if_neg hv, constructorLog_installPlay, constructorLog_stop]

theorem c6_constructed_play_args_witness :
    stBase.rs5 = true
    ∧ (requestPlay stBase (.mk (3/2) (3/10) false ReqList.nil)).1.constructorLog
        = stBase.constructorLog
          ++ [(clampF (sanitize (3/2) (3/10)).1, clampF (sanitize (3/2) (3/10)).2, false)] :=
  ⟨rfl, c6_constructed_play_args stBase (3/2) (3/10) false rfl⟩

/-- C8: when the computed duration of the current (installed, not yet
    started, in-range) play is below the 20ms floor, `Start` jumps progress
    directly to `fromProgress` via `SetProgress` and the play completes
    immediately: IsPlaying stays false (it is never set true), the play is
    deregistered, and the completed record never entered the Started
    state. -/
theorem c8_short_duration_completes_immediately
    (st : AnimatedVisualPlayer) (pid : Nat) (r : AnimationPlay)
    (h5 : st.rs5 = true)
    (hg : st.plays[pid]? = some r)
    (hnp : st.nowPlaying = some pid)
    (hd : r.playDuration < minPlayDurationTicks)
    (h0 : 0 ≤ r.fromProgress) (h1 : r.fromProgress ≤ 1)
    (hstarted : r.started = false) :
    (startPlay st pid).progress = r.fromProgress
    ∧ (startPlay st pid).isPlaying = false
    ∧ (startPlay st pid).nowPlaying = none
    ∧ (startPlay st pid).everIsPlayingTrue = st.everIsPlayingTrue
    ∧ (startPlay st pid).plays[pid]?
        = some { r with batchSubscribed := false, completed := true }
    ∧ ({ r with batchSubscribed := false, completed := true } : AnimationPlay).started
        = false := by
  have h5' : ¬st.rs5 = false := by simp [h5]
  rw [startPlay_short st pid r hg hd]
  rw [setProgress_some st r.fromProgress pid h5' hnp]
  rw [completePlay_current { st with progress := clampF r.fromProgress } pid hnp]
  refine ⟨clampF_of_mem _ h0 h1, rfl, rfl, rfl, ?_, hstarted⟩
  have hX : ({ st with progress := clampF r.fromProgress } : AnimatedVisualPlayer).plays
      = st.plays := rfl
  rw [getElem?_modifyNth, if_pos rfl, getElem?_modifyNth, if_pos rfl, hX, hg]
  rfl

theorem c8_short_duration_completes_immediately_witness :
    (stShort.rs5 = true ∧ stShort.plays[0]? = some shortPlay
      ∧ stShort.nowPlaying = some 0
      ∧ shortPlay.playDuration < minPlayDurationTicks
      ∧ (0:ℚ) ≤ shortPlay.fromProgress ∧ shortPlay.fromProgress ≤ 1
      ∧ shortPlay.started = false)
    ∧ ((startPlay stShort 0).progress = shortPlay.fromProgress
       ∧ (startPlay stShort 0).isPlaying = false
       ∧ (startPlay stShort 0).nowPlaying = none
       ∧ (startPlay stShort 0).everIsPlayingTrue = stShort.everIsPlayingTrue
       ∧ (startPlay stShort 0).plays[0]?
           = some { shortPlay with batchSubscribed := false, completed := true }
       ∧ ({ shortPlay with batchSubscribed := false, completed := true }
            : AnimationPlay).started = false) :=
  ⟨⟨rfl, rfl, rfl, by norm_num [shortPlay, minPlayDurationTicks],
    by norm_num [shortPlay], by norm_num [shortPlay], rfl⟩,
   c8_short_duration_completes_immediately stShort 0 shortPlay rfl rfl rfl
     (by norm_num [shortPlay, minPlayDurationTicks])
     (by norm_num [shortPlay]) (by norm_num [shortPlay]) rfl⟩

/-- C1 (refuting the claim as stated): `Stop()` does NOT force progress to
    the active play's `fromProgress`.  It writes
    `m_currentPlayFromProgress`, a field no statement of the source ever
    assigns, so whatever its initial value `v`, stopping a play started with
    `from = 1/5` and then stopping a later play started with `from = 7/10`
    would have to make `clampF v` equal to both — impossible.  (`Stop()`
    does synchronously complete the play: both plays below are active —
    IsPlaying is true — when stopped.) -/
theorem c1_stop_ignores_play_fromProgress (v : ℚ) :
    (requestPlay { stBase with currentPlayFromProgress := v }
        (.mk (1/5) (4/5) false ReqList.nil)).1.isPlaying = true
    ∧ (requestPlay
        (stop (requestPlay { stBase with currentPlayFromProgress := v }
          (.mk (1/5) (4/5) false ReqList.nil)).1)
        (.mk (7/10) (9/10) false ReqList.nil)).1.isPlaying = true
    ∧ ¬((stop (requestPlay { stBase with currentPlayFromProgress := v }
          (.mk (1/5) (4/5) false ReqList.nil)).1).progress = 1/5
      ∧ (stop (requestPlay
          (stop (requestPlay { stBase with currentPlayFromProgress := v }
            (.mk (1/5) (4/5) false ReqList.nil)).1)
          (.mk (7/10) (9/10) false ReqList.nil)).1).progress = 7/10) := by
  have hd1 : ¬(mkAnimationPlay
      ({ stBase with currentPlayFromProgress := v } : AnimatedVisualPlayer).duration
      (clampF (sanitize (1/5) (4/5)).1) (clampF (sanitize (1/5) (4/5)).2)
      false).playDuration < minPlayDurationTicks := by
    norm_num [stBase, mkAnimationPlay, sanitize, clampF, minPlayDurationTicks]
  obtain ⟨hq1play, hq1some, hq1rs5, hq1dur, hq1load, hq1cpfp⟩ :=
    requestPlay_nil_started { stBase with currentPlayFromProgress := v }
      (1/5) (4/5) false rfl rfl hd1
  obtain ⟨pid1, hpid1⟩ := Option.isSome_iff_exists.mp hq1some
  obtain ⟨hs1prog, hs1play, hs1rs5, hs1dur, hs1load, hs1cpfp⟩ :=
    stop_active _ pid1 (hq1rs5.trans rfl) hpid1
  have hd2 : ¬(mkAnimationPlay
      (stop (requestPlay { stBase with currentPlayFromProgress := v }
        (.mk (1/5) (4/5) false ReqList.nil)).1).duration
      (clampF (sanitize (7/10) (9/10)).1) (clampF (sanitize (7/10) (9/10)).2)
      false).playDuration < minPlayDurationTicks := by
    rw [hs1dur, hq1dur]
    norm_num [stBase, mkAnimationPlay, sanitize, clampF, minPlayDurationTicks]
  obtain ⟨hq2play, hq2some, hq2rs5, hq2dur, hq2load, hq2cpfp⟩ :=
    requestPlay_nil_started
      (stop (requestPlay { stBase with currentPlayFromProgress := v }
        (.mk (1/5) (4/5) false ReqList.nil)).1)
      (7/10) (9/10) false (hs1rs5.trans (hq1rs5.trans rfl))
      (hs1load.trans (hq1load.trans rfl)) hd2
  obtain ⟨pid2, hpid2⟩ := Option.isSome_iff_exists.mp hq2some
  obtain ⟨hs2prog, hs2play, hs2rs5, hs2dur, hs2load, hs2cpfp⟩ :=
    stop_active _ pid2 (hq2rs5.trans (hs1rs5.trans (hq1rs5.trans rfl))) hpid2
  refine ⟨hq1play, hq2play, ?_⟩
  rintro ⟨hA, hB⟩
  rw [hs1prog, hq1cpfp] at hA
  rw [hs2prog, hq2cpfp, hs1cpfp, hq1cpfp] at hB
  rw [hA] at hB
  norm_num at hB

end AVP
